import Mathlib

/-!
Shallow embedding of the UniversalBeat rhythm-game timing core
(`UUniversalBeatSubsystem` and `UUniversalBeatFunctionLibrary`).

Floating-point values of the C++ code are modelled as rationals (`ℚ`);
the special IEEE values NaN and ±infinity, which `SetBPM` inspects via
`FMath::IsFinite`, are modelled by an explicit sum type `FloatIn`.
Frame numbers (`FFrameNumber`) are modelled as integers and gameplay
tags (`FGameplayTag`) as naturals, with `0` standing for the invalid
(empty) tag.  External collaborators (the timer manager, the level
sequence player, the world clock) are modelled by passing their
observable values — the current beat phase and the current playback
time — as explicit arguments to the operations that read them.
-/

namespace UniversalBeat

/-- Source `EBeatSubdivision` from UniversalBeatTypes.h. -/
inductive EBeatSubdivision
  | None | Whole | Half | Quarter | Eighth | Sixteenth
  deriving DecidableEq, Repr

/-- Source `EMusicalNoteValue` from UniversalBeatTypes.h. -/
inductive EMusicalNoteValue
  | Sixteenth | Eighth | Quarter | Half | Whole
  deriving DecidableEq, Repr

/-- Source `ENoteTimingDirection` from UniversalBeatTypes.h. -/
inductive ENoteTimingDirection
  | Early | OnTime | Late
  deriving DecidableEq, Repr

/-- Source `FGameplayTag`: only identity and validity matter to the core, so a
tag is a natural number, `0` being the empty (invalid) tag. -/
structure FGameplayTag where
  val : ℕ
  deriving DecidableEq, Repr

/-- Source `FGameplayTag::IsValid()`. -/
def FGameplayTag.IsValid (t : FGameplayTag) : Bool := t.val ≠ 0

/-- Source `UNoteDataAsset`: the immutable note definition (tag plus the two
musical timing-window values). -/
structure UNoteDataAsset where
  NoteTag : FGameplayTag
  PreTiming : EMusicalNoteValue
  PostTiming : EMusicalNoteValue
  deriving DecidableEq, Repr

/-- Source `FNoteInstance`: a timestamp (an `FFrameNumber`, modelled as `ℤ`)
plus a possibly-null pointer to a `UNoteDataAsset`. -/
structure FNoteInstance where
  Timestamp : ℤ
  NoteData : Option UNoteDataAsset
  deriving DecidableEq, Repr

/-- Source `FNoteTrackEntry`: one track of a song configuration. -/
structure FNoteTrackEntry where
  TrackSequence : ℕ
  DelayOffset : ℚ
  LoopCount : ℤ
  deriving DecidableEq, Repr

instance : Inhabited FNoteTrackEntry := ⟨⟨0, 0, 0⟩⟩

/-- The caller-supplied accuracy curve (`UCurveFloat`): the subsystem
only reads its key count and evaluates it, so it is modelled as a key
count plus an arbitrary evaluation function. -/
structure CurveModel where
  numKeys : ℕ
  eval : ℚ → ℚ

/-- Source `FNoteValidationResult`. -/
structure FNoteValidationResult where
  bHit : Bool
  NoteTag : FGameplayTag
  Accuracy : ℚ
  TimingDirection : ENoteTimingDirection
  TimingOffset : ℚ
  NoteTimestamp : ℚ
  NoteData : Option UNoteDataAsset
  deriving DecidableEq, Repr

/-- The subsystem state (`UUniversalBeatSubsystem`'s fields that the
CORE operations read and write). -/
structure BeatState where
  CurrentBPM : ℚ
  PendingBPM : ℚ
  CurrentBeatTick : ℕ
  TimerRate : ℚ
  CalibrationOffsetMs : ℚ
  bBeatBroadcastingEnabled : Bool
  CurrentSubdivision : EBeatSubdivision
  TimingCurve : Option CurveModel
  CachedNotesSorted : List FNoteInstance
  ConsumedNoteTimestamps : List ℤ
  CurrentNoteIndex : ℕ
  CachedSequenceFrameRate : ℚ
  CurrentlyPlayingSong : Option ℕ
  QueuedSongs : List ℕ
  QueuedTracks : List FNoteTrackEntry
  CurrentTrackInfo : FNoteTrackEntry
  TrackDelayTimerActive : Bool
  PlayerPlaying : Bool
  CurrentNoteChartSequence : Option ℕ

/-- The timer always ticks at the internal sixteenth-note subdivision:
`InternalSubdivision = 16` ticks per beat. -/
def InternalSubdivision : ℕ := 16

/-- Source `ConvertMusicalNoteToSeconds` (UniversalBeatTypes.cpp): duration in
seconds of a musical note value at the given BPM; non-positive BPM
yields 0. -/
def ConvertMusicalNoteToSeconds (NoteValue : EMusicalNoteValue) (BPM : ℚ) : ℚ :=
  if BPM ≤ 0 then 0
  else
    let QuarterNoteSeconds := 60 / BPM
    match NoteValue with
    | .Sixteenth => QuarterNoteSeconds / 4
    | .Eighth => QuarterNoteSeconds / 2
    | .Quarter => QuarterNoteSeconds
    | .Half => QuarterNoteSeconds * 2
    | .Whole => QuarterNoteSeconds * 4

/-- Source `GetTicksForSubdivision`: subdivision enum to tick divisor. -/
def GetTicksForSubdivision (Subdivision : EBeatSubdivision) : ℕ :=
  match Subdivision with
  | .None => 0
  | .Whole => 16
  | .Half => 8
  | .Quarter => 4
  | .Eighth => 2
  | .Sixteenth => 1

/-- Source `FMath::Clamp` on rationals. -/
def clampQ (x lo hi : ℚ) : ℚ := min hi (max lo x)

/-- Source `GetTimerRate`: `(60/BPM)/InternalSubdivision + CalibrationOffset/1000`. -/
def GetTimerRate (s : BeatState) : ℚ :=
  (60 / s.CurrentBPM) / (InternalSubdivision : ℚ) + s.CalibrationOffsetMs / 1000

/-- Source `RecreateTimerWithNewRate`: restarts the scheduler at the current
rate and resets the tick counter to 0. -/
def RecreateTimerWithNewRate (s : BeatState) : BeatState :=
  { s with TimerRate := GetTimerRate s, CurrentBeatTick := 0 }

/-- A float argument as `SetBPM` sees it: a finite rational or one of
the IEEE special values that `FMath::IsFinite` rejects. -/
inductive FloatIn
  | fin (q : ℚ) | nan | posInf | negInf
  deriving DecidableEq, Repr

/-- Source `FMath::IsFinite`. -/
def FloatIn.isFinite : FloatIn → Bool
  | .fin _ => true
  | _ => false

/-- The IEEE comparison `v <= 0.0f` (false on NaN). -/
def FloatIn.leZero : FloatIn → Bool
  | .fin q => q ≤ 0
  | .nan => false
  | .posInf => false
  | .negInf => true

/-- Source `SetBPM` (UniversalBeatSubsystem.cpp, part_005 lines 80-111):
invalid input resets to 120 and restarts the clock; out-of-range input
is clamped to [20,400]; a changed value is queued in `PendingBPM`, not
applied. -/
def SetBPM (s : BeatState) (NewBPM : FloatIn) : BeatState :=
  if NewBPM.leZero || !NewBPM.isFinite then
    RecreateTimerWithNewRate { s with CurrentBPM := 120, PendingBPM := 0 }
  else
    match NewBPM with
    | .fin q =>
      let q' := if q < 20 ∨ q > 400 then clampQ q 20 400 else q
      if q' ≠ s.CurrentBPM then { s with PendingBPM := q' } else s
    | _ => s

/-- Source `GetBPM`. -/
def GetBPM (s : BeatState) : ℚ := s.CurrentBPM

/-- Source `GetCurrentBeatNumber`: `CurrentBeatTick / InternalSubdivision`. -/
def GetCurrentBeatNumber (s : BeatState) : ℕ := s.CurrentBeatTick / InternalSubdivision

/-- The observable events the tick handler can broadcast. -/
inductive BeatEvent
  | bpmChanged (bpm : ℚ)
  | beat (beatNumber : ℕ) (subdivisionIndex : ℕ) (subdivisionType : EBeatSubdivision)
  deriving DecidableEq, Repr

/-- Source `BroadcastBeatEvent` (part_005 lines 545-610): the periodic tick
handler.  Increments the tick counter; applies a pending BPM at a
whole-beat boundary (emitting the BPM-changed event, restarting the
timer and returning early); otherwise performs subdivision-filtered
beat broadcasting. -/
def BroadcastBeatEvent (s : BeatState) : BeatState × List BeatEvent :=
  let t := s.CurrentBeatTick + 1
  let s1 := { s with CurrentBeatTick := t }
  if s1.PendingBPM > 0 ∧ t % InternalSubdivision = 0 then
    let s2 := { s1 with CurrentBPM := s1.PendingBPM, PendingBPM := 0 }
    (RecreateTimerWithNewRate s2, [.bpmChanged s2.CurrentBPM])
  else if !s1.bBeatBroadcastingEnabled then
    (s1, [])
  else
    let TicksPerBroadcast := GetTicksForSubdivision s1.CurrentSubdivision
    if TicksPerBroadcast > 0 ∧ t % TicksPerBroadcast = 0 then
      let SubdivisionsPerBeat := InternalSubdivision / TicksPerBroadcast
      let SubdivisionIndex := (t / TicksPerBroadcast) % SubdivisionsPerBeat
      (s1, [.beat (GetCurrentBeatNumber s1) SubdivisionIndex s1.CurrentSubdivision])
    else
      (s1, [])

/-- The state part of one tick. -/
def tickState (s : BeatState) : BeatState := (BroadcastBeatEvent s).1

/-- Iterates `n` ticks of the handler, state only. -/
def tickStateN (s : BeatState) (n : ℕ) : BeatState := tickState^[n] s

/-- Iterates `n` ticks of the handler, collecting every broadcast event
in order. -/
def runTicks (s : BeatState) : ℕ → BeatState × List BeatEvent
  | 0 => (s, [])
  | n + 1 =>
    let (s1, es) := BroadcastBeatEvent s
    let (s2, es') := runTicks s1 n
    (s2, es ++ es')

/-- The linear fallback of `EvaluateTimingCurve`: a triangle wave on
[0,1], rising `0→1` on `[0,1/2]` and falling `1→0` on `[1/2,1]`. -/
def fallbackTriangle (BeatPhase : ℚ) : ℚ :=
  if BeatPhase ≤ 1/2 then BeatPhase * 2 else (1 - BeatPhase) * 2

/-- Whether the `TimingCurve && TimingCurve->FloatCurve.GetNumKeys() > 0`
guard holds. -/
def curveHasData : Option CurveModel → Bool
  | some c => 0 < c.numKeys
  | none => false

/-- Source `EvaluateTimingCurve` (part_005 lines 440-480): evaluate the curve
when present and non-empty, otherwise the triangle fallback; clamp the
result to [0,1]. -/
def EvaluateTimingCurve (curve : Option CurveModel) (BeatPhase : ℚ) : ℚ :=
  let RawValue :=
    match curve with
    | some c => if 0 < c.numKeys then c.eval BeatPhase else fallbackTriangle BeatPhase
    | none => fallbackTriangle BeatPhase
  clampQ RawValue 0 1

/-- The scalar computed by `CheckBeatTimingInternal` (part_005 lines
506-513): the curve input is `abs(BeatPhase)` and the timing value is
the curve evaluation at it.  The beat phase read from the timer is
passed as an argument. -/
def CheckBeatTimingValue (curve : Option CurveModel) (BeatPhase : ℚ) : ℚ :=
  EvaluateTimingCurve curve |BeatPhase|

/-- Source `FrameToSeconds`: `CachedSequenceFrameRate.AsSeconds(Frame)`, i.e.
frame count divided by frames-per-second. -/
def FrameToSeconds (s : BeatState) (Frame : ℤ) : ℚ :=
  (Frame : ℚ) / s.CachedSequenceFrameRate

/-- The loop body of `GetNextNoteForTag` (part_005 lines 1509-1558),
walking the suffix of `CachedNotesSorted` that starts at index `i`
(the element list is the suffix itself; `i` is carried along so the
matched index can be returned).  Skips consumed notes and notes with a
null or mismatched definition; a note whose window contains
`CurrentTime` is the match, a note whose window has already passed is
skipped, and a note whose window is still in the future stops the
scan. -/
def scanNotes (Consumed : List ℤ) (BPM FPS : ℚ) (NoteTag : FGameplayTag)
    (CurrentTime : ℚ) : List FNoteInstance → ℕ →
    Option (FNoteInstance × UNoteDataAsset × ℕ)
  | [], _ => none
  | Note :: rest, i =>
    if Note.Timestamp ∈ Consumed then
      scanNotes Consumed BPM FPS NoteTag CurrentTime rest (i + 1)
    else
      match Note.NoteData with
      | none => scanNotes Consumed BPM FPS NoteTag CurrentTime rest (i + 1)
      | some nd =>
        if nd.NoteTag ≠ NoteTag then
          scanNotes Consumed BPM FPS NoteTag CurrentTime rest (i + 1)
        else
          let NoteTimeSeconds := (Note.Timestamp : ℚ) / FPS
          let WindowStart := NoteTimeSeconds - ConvertMusicalNoteToSeconds nd.PreTiming BPM
          let WindowEnd := NoteTimeSeconds + ConvertMusicalNoteToSeconds nd.PostTiming BPM
          if WindowStart ≤ CurrentTime ∧ CurrentTime ≤ WindowEnd then
            some (Note, nd, i)
          else if WindowEnd < CurrentTime then
            scanNotes Consumed BPM FPS NoteTag CurrentTime rest (i + 1)
          else
            none

/-- Source `GetNextNoteForTag` (part_005 lines 1500-1561): forward-only scan
from `CurrentNoteIndex`; returns the matched note, its definition and
the index the cursor is advanced to. -/
def GetNextNoteForTag (s : BeatState) (NoteTag : FGameplayTag) (CurrentTime : ℚ) :
    Option (FNoteInstance × UNoteDataAsset × ℕ) :=
  if !NoteTag.IsValid || s.CachedNotesSorted.length = 0 then none
  else
    scanNotes s.ConsumedNoteTimestamps s.CurrentBPM s.CachedSequenceFrameRate
      NoteTag CurrentTime (s.CachedNotesSorted.drop s.CurrentNoteIndex)
      s.CurrentNoteIndex

/-- Source `MarkNoteConsumed`: consumption is keyed by the raw timestamp
value. -/
def MarkNoteConsumed (s : BeatState) (Note : FNoteInstance) : BeatState :=
  { s with ConsumedNoteTimestamps := Note.Timestamp :: s.ConsumedNoteTimestamps }

/-- Source `IsNoteConsumed`. -/
def IsNoteConsumed (s : BeatState) (Note : FNoteInstance) : Bool :=
  Note.Timestamp ∈ s.ConsumedNoteTimestamps

/-- Source `ResetConsumedNotes`. -/
def ResetConsumedNotes (s : BeatState) : BeatState :=
  { s with ConsumedNoteTimestamps := [], CurrentNoteIndex := 0 }

/-- Source `CheckBeatTimingByTag` (part_005 lines 695-792).  The two external
reads — the playback position (`GetCurrentPlaybackTime`) and the beat
phase the fallback path feeds to the curve — are passed as arguments.
Returns the validation result together with the updated state (cursor
advance and consumption on a hit). -/
def CheckBeatTimingByTag (s : BeatState) (InputTag : FGameplayTag)
    (CurrentTime BeatPhase : ℚ) : FNoteValidationResult × BeatState :=
  let base : FNoteValidationResult :=
    { bHit := false, NoteTag := InputTag, Accuracy := 0,
      TimingDirection := .OnTime, TimingOffset := 0, NoteTimestamp := 0,
      NoteData := none }
  if s.CachedNotesSorted.length = 0 ∨ !InputTag.IsValid then
    ({ base with Accuracy := CheckBeatTimingValue s.TimingCurve BeatPhase,
                 TimingOffset := 0 }, s)
  else
    match GetNextNoteForTag s InputTag CurrentTime with
    | none => ({ base with bHit := false, Accuracy := 0, TimingDirection := .Late }, s)
    | some (FoundNote, nd, i) =>
      let NoteTimestamp := FrameToSeconds s FoundNote.Timestamp
      let TimingOffset := CurrentTime - NoteTimestamp
      let dir : ENoteTimingDirection :=
        if |TimingOffset| < 1/1000 then .OnTime
        else if TimingOffset < 0 then .Early
        else .Late
      let PreTimingSeconds := ConvertMusicalNoteToSeconds nd.PreTiming s.CurrentBPM
      let PostTimingSeconds := ConvertMusicalNoteToSeconds nd.PostTiming s.CurrentBPM
      let MaxTimingWindow := if TimingOffset < 0 then PreTimingSeconds else PostTimingSeconds
      let Accuracy := clampQ (1 - |TimingOffset| / MaxTimingWindow) 0 1
      let s' := MarkNoteConsumed { s with CurrentNoteIndex := i } FoundNote
      ({ base with bHit := true, NoteTag := nd.NoteTag, NoteData := some nd,
                   NoteTimestamp := NoteTimestamp, TimingOffset := TimingOffset,
                   TimingDirection := dir, Accuracy := Accuracy }, s')

/-- A note chart section (`UMovieSceneNoteChartSection`): its runtime
notes. -/
structure NoteChartSection where
  RuntimeNotes : List FNoteInstance
  deriving DecidableEq, Repr

/-- A movie scene section: either a note chart section or some other
section kind (the `Cast` in the source fails on the latter). -/
inductive MovieSceneSection
  | note (sec : NoteChartSection) | other
  deriving DecidableEq, Repr

/-- A movie scene track: either a note chart track with its sections,
or some other track kind. -/
inductive MovieSceneTrack
  | noteChart (sections : List MovieSceneSection) | other
  deriving DecidableEq, Repr

/-- Source `UMovieScene`: display rate (frames per second) plus tracks. -/
structure MovieScene where
  DisplayRate : ℚ
  Tracks : List MovieSceneTrack
  deriving DecidableEq, Repr

/-- Source `ULevelSequence`: a possibly-null movie scene. -/
structure ULevelSequence where
  MovieScene : Option MovieScene
  deriving DecidableEq, Repr

/-- The note-collection loop of `LoadNoteChartFromSequence`: append the
runtime notes of every note chart section of every note chart track,
in order. -/
def collectNotes (tracks : List MovieSceneTrack) : List FNoteInstance :=
  tracks.flatMap fun tr =>
    match tr with
    | .noteChart sections =>
      sections.flatMap fun sec =>
        match sec with
        | .note ncs => ncs.RuntimeNotes
        | .other => []
    | .other => []

/-- The comparison handed to `CachedNotesSorted.Sort`. -/
def noteLE (A B : FNoteInstance) : Bool := A.Timestamp ≤ B.Timestamp

/-- Source `LoadNoteChartFromSequence` (part_005 lines 1299-1359): a null
sequence fails before touching any state; otherwise the index is
cleared, the display rate cached, all notes collected and sorted
ascending by timestamp, and the load succeeds iff at least one note
was found. -/
def LoadNoteChartFromSequence (s : BeatState) (Sequence : Option ULevelSequence) :
    Bool × BeatState :=
  match Sequence with
  | none => (false, s)
  | some sq =>
    let s1 := { s with CachedNotesSorted := [], ConsumedNoteTimestamps := [],
                       CurrentNoteIndex := 0 }
    match sq.MovieScene with
    | none => (false, s1)
    | some ms =>
      let notes := (collectNotes ms.Tracks).mergeSort noteLE
      let s2 := { s1 with CachedSequenceFrameRate := ms.DisplayRate,
                          CachedNotesSorted := notes }
      (s2.CachedNotesSorted.length > 0, s2)

/-- Source `ClearNoteChart`. -/
def ClearNoteChart (s : BeatState) : BeatState :=
  { s with CachedNotesSorted := [], ConsumedNoteTimestamps := [],
           CurrentNoteIndex := 0 }

/-- Source `CleanupSongPlayback` (part_005 lines 1039-1069): stop the player,
clear the delay timer and the track queue, reset the current track
info, clear the current song and the note chart.  The pending song
queue (`QueuedSongs`) is not touched. -/
def CleanupSongPlayback (s : BeatState) : BeatState :=
  ClearNoteChart
    { s with PlayerPlaying := false, TrackDelayTimerActive := false,
             QueuedTracks := [], CurrentTrackInfo := default,
             CurrentlyPlayingSong := none }

/-- Source `StopCurrentSong` (part_005 lines 926-950): a no-op when no song is
playing; otherwise cleans up playback state. -/
def StopCurrentSong (s : BeatState) : BeatState :=
  match s.CurrentlyPlayingSong with
  | none => s
  | some _ => { CleanupSongPlayback s with CurrentlyPlayingSong := none }

/-- Source `StopNoteChartSequence` (part_005 lines 1472-1487): stop the
player, drop the current sequence, clear the note chart. -/
def StopNoteChartSequence (s : BeatState) : BeatState :=
  ClearNoteChart
    { s with PlayerPlaying := false, CurrentNoteChartSequence := none }

/-- A validation call, for reasoning about call sequences: one
`CheckBeatTimingByTag` invocation with its tag and its two external
reads. -/
inductive BeatOp
  | check (tag : FGameplayTag) (time phase : ℚ)

/-- Apply one validation call to the state. -/
def applyOp (s : BeatState) : BeatOp → BeatState
  | .check tag t p => (CheckBeatTimingByTag s tag t p).2

/-- Apply a sequence of validation calls. -/
def runOps (s : BeatState) (ops : List BeatOp) : BeatState :=
  ops.foldl applyOp s

/-- The state `Initialize` (part_005 lines 20-46) establishes: BPM 120,
nothing pending, tick 0, default 60 FPS frame rate, empty chart and
queues. -/
def initState : BeatState :=
  { CurrentBPM := 120, PendingBPM := 0, CurrentBeatTick := 0,
    TimerRate := (60 / 120) / (16 : ℚ), CalibrationOffsetMs := 0,
    bBeatBroadcastingEnabled := false, CurrentSubdivision := .None,
    TimingCurve := none, CachedNotesSorted := [],
    ConsumedNoteTimestamps := [], CurrentNoteIndex := 0,
    CachedSequenceFrameRate := 60, CurrentlyPlayingSong := none,
    QueuedSongs := [], QueuedTracks := [], CurrentTrackInfo := default,
    TrackDelayTimerActive := false, PlayerPlaying := false,
    CurrentNoteChartSequence := none }

/-- A concrete valid gameplay tag. -/
def tagA : FGameplayTag := ⟨1⟩

/-- The note definition of the §8 scenario: tag `tagA`, pre-window a
quarter note, post-window an eighth note. -/
def noteDataA : UNoteDataAsset :=
  { NoteTag := tagA, PreTiming := .Quarter, PostTiming := .Eighth }

/-- The scenario note: frame 120 at the 60 FPS display rate, i.e.
timestamp 2.0 s. -/
def noteA : FNoteInstance := { Timestamp := 120, NoteData := some noteDataA }

/-- The scenario state: the chart holds exactly `noteA`, BPM 120. -/
def chartState : BeatState := { initState with CachedNotesSorted := [noteA] }

/-- A second note definition with a different tag, for collision
scenarios. -/
def noteDataC : UNoteDataAsset :=
  { NoteTag := ⟨2⟩, PreTiming := .Quarter, PostTiming := .Eighth }

/-- A later note with `noteA`'s tag: frame 240 (4.0 s at 60 FPS). -/
def noteB : FNoteInstance := { Timestamp := 240, NoteData := some noteDataA }

/-- A note sharing `noteA`'s timestamp but carrying a different tag. -/
def noteC : FNoteInstance := { Timestamp := 120, NoteData := some noteDataC }

section Helpers

lemma clampQ01_nonneg (x : ℚ) : 0 ≤ clampQ x 0 1 := by
  unfold clampQ
  simp [le_min_iff, le_max_iff]

lemma clampQ01_le_one (x : ℚ) : clampQ x 0 1 ≤ 1 := by
  unfold clampQ
  exact min_le_left _ _

lemma clampQ01_eq_self {x : ℚ} (h0 : 0 ≤ x) (h1 : x ≤ 1) : clampQ x 0 1 = x := by
  unfold clampQ
  rw [max_eq_right h0, min_eq_right h1]

lemma fallbackTriangle_nonneg {x : ℚ} (h0 : 0 ≤ x) (h1 : x ≤ 1) :
    0 ≤ fallbackTriangle x := by
  unfold fallbackTriangle
  split <;> linarith

lemma fallbackTriangle_le_one {x : ℚ} (h0 : 0 ≤ x) (h1 : x ≤ 1) :
    fallbackTriangle x ≤ 1 := by
  unfold fallbackTriangle
  split <;> linarith

lemma EvaluateTimingCurve_nonneg (c : Option CurveModel) (p : ℚ) :
    0 ≤ EvaluateTimingCurve c p :=
  clampQ01_nonneg _

lemma EvaluateTimingCurve_le_one (c : Option CurveModel) (p : ℚ) :
    EvaluateTimingCurve c p ≤ 1 :=
  clampQ01_le_one _

end Helpers

/-- C1 counterexample: the spec's fallback `accuracy = 1 - abs(phase)`
fails at phase 0, where the code's triangle fallback yields 0, not 1. -/
theorem C1_fallback_formula_cex : CheckBeatTimingValue none 0 ≠ 1 - |(0 : ℚ)| := by
  norm_num [CheckBeatTimingValue, EvaluateTimingCurve, fallbackTriangle, clampQ,
    min_def, max_def]

/-- C1 (amended): for phase `p ∈ [-1,1]` with no timing curve set (or a
curve with no keys), a timing check evaluates the triangle fallback at
`abs(p)` and returns `2*abs(p)` for `abs(p) ≤ 1/2` and `2*(1-abs(p))`
otherwise (so `p=0 → 0`, `p=±0.5 → 1`, `p=±1 → 0`), with the result in
[0,1]. -/
theorem C1_fallback_is_triangle (curve : Option CurveModel) (p : ℚ)
    (hc : curveHasData curve = false) (hlo : -1 ≤ p) (hhi : p ≤ 1) :
    CheckBeatTimingValue curve p =
      (if |p| ≤ 1/2 then 2 * |p| else 2 * (1 - |p|)) ∧
    0 ≤ CheckBeatTimingValue curve p ∧ CheckBeatTimingValue curve p ≤ 1 := by
  have habs0 : 0 ≤ |p| := abs_nonneg p
  have habs1 : |p| ≤ 1 := abs_le.mpr ⟨hlo, hhi⟩
  have hfb : CheckBeatTimingValue curve p = clampQ (fallbackTriangle |p|) 0 1 := by
    cases curve with
    | none => rfl
    | some c =>
      have hk : ¬ 0 < c.numKeys := by
        simpa [curveHasData] using hc
      simp [CheckBeatTimingValue, EvaluateTimingCurve, hk]
  rw [hfb, clampQ01_eq_self (fallbackTriangle_nonneg habs0 habs1)
    (fallbackTriangle_le_one habs0 habs1)]
  refine ⟨?_, fallbackTriangle_nonneg habs0 habs1, fallbackTriangle_le_one habs0 habs1⟩
  unfold fallbackTriangle
  split <;> ring

/-- Witness for C1's amended theorem at `p = 1/2`. -/
theorem C1_fallback_is_triangle_witness :
    CheckBeatTimingValue none (1/2) =
      (if |(1/2 : ℚ)| ≤ 1/2 then 2 * |(1/2 : ℚ)| else 2 * (1 - |(1/2 : ℚ)|)) ∧
    0 ≤ CheckBeatTimingValue none (1/2) ∧ CheckBeatTimingValue none (1/2) ≤ 1 :=
  C1_fallback_is_triangle none (1/2) rfl (by norm_num) (by norm_num)

/-- C3: the §8 end-to-end scenario.  One note at 2.0 s with pre-window
Quarter (0.5 s at 120 BPM) and post-window Eighth (0.25 s): a query at
1.3 s misses; a query at 1.6 s hits with offset -0.4 s, accuracy 0.2
(pre-window used), direction Early, and consumes the note; a second
query at 1.6 s then finds no match. -/
theorem C3_scenario_quarter_eighth :
    (CheckBeatTimingByTag chartState tagA (13/10) 0).1.bHit = false ∧
    (CheckBeatTimingByTag chartState tagA (8/5) 0).1.bHit = true ∧
    (CheckBeatTimingByTag chartState tagA (8/5) 0).1.TimingOffset = -(2/5) ∧
    (CheckBeatTimingByTag chartState tagA (8/5) 0).1.Accuracy = 1/5 ∧
    (CheckBeatTimingByTag chartState tagA (8/5) 0).1.TimingDirection = .Early ∧
    (CheckBeatTimingByTag chartState tagA (8/5) 0).2.ConsumedNoteTimestamps
      = [(120 : ℤ)] ∧
    (CheckBeatTimingByTag
      (CheckBeatTimingByTag chartState tagA (8/5) 0).2 tagA (8/5) 0).1.bHit = false := by
  norm_num [CheckBeatTimingByTag, GetNextNoteForTag, scanNotes, chartState, initState,
    noteA, noteDataA, tagA, FGameplayTag.IsValid, ConvertMusicalNoteToSeconds,
    FrameToSeconds, MarkNoteConsumed, CheckBeatTimingValue, EvaluateTimingCurve,
    fallbackTriangle, clampQ, min_def, max_def, abs]

/-- C6 counterexample: with no chart loaded the fallback accuracy can
be non-zero (here 1 at phase 1/2) while the hit flag stays false — the
code never mirrors the hit flag from the fallback accuracy. -/
theorem C6_fallback_hit_cex :
    (CheckBeatTimingByTag initState tagA 0 (1/2)).1.Accuracy = 1 ∧
    (CheckBeatTimingByTag initState tagA 0 (1/2)).1.bHit = false := by
  norm_num [CheckBeatTimingByTag, initState, tagA, FGameplayTag.IsValid,
    CheckBeatTimingValue, EvaluateTimingCurve, fallbackTriangle, clampQ,
    min_def, max_def, abs]

/-- C6 (amended): with no chart loaded or an invalid tag,
`CheckBeatTimingByTag` does not fail: it returns the fallback
label-based timing value as accuracy (always in [0,1]), a zero timing
offset, a hit flag that is always false, and leaves the state
unchanged. -/
theorem C6_fallback_result (s : BeatState) (tag : FGameplayTag) (t phase : ℚ)
    (h : s.CachedNotesSorted.length = 0 ∨ tag.IsValid = false) :
    (CheckBeatTimingByTag s tag t phase).1.Accuracy
      = CheckBeatTimingValue s.TimingCurve phase ∧
    0 ≤ (CheckBeatTimingByTag s tag t phase).1.Accuracy ∧
    (CheckBeatTimingByTag s tag t phase).1.Accuracy ≤ 1 ∧
    (CheckBeatTimingByTag s tag t phase).1.TimingOffset = 0 ∧
    (CheckBeatTimingByTag s tag t phase).1.bHit = false ∧
    (CheckBeatTimingByTag s tag t phase).2 = s := by
  have hcond : s.CachedNotesSorted.length = 0 ∨ !tag.IsValid := by
    rcases h with h | h
    · exact Or.inl h
    · exact Or.inr (by simp [h])
  rw [CheckBeatTimingByTag, if_pos hcond]
  exact ⟨rfl, EvaluateTimingCurve_nonneg _ _, EvaluateTimingCurve_le_one _ _,
    rfl, rfl, rfl⟩

/-- Witness for C6's amended theorem: the empty initial state. -/
theorem C6_fallback_result_witness :
    (CheckBeatTimingByTag initState tagA 0 (1/2)).1.Accuracy
      = CheckBeatTimingValue initState.TimingCurve (1/2) ∧
    0 ≤ (CheckBeatTimingByTag initState tagA 0 (1/2)).1.Accuracy ∧
    (CheckBeatTimingByTag initState tagA 0 (1/2)).1.Accuracy ≤ 1 ∧
    (CheckBeatTimingByTag initState tagA 0 (1/2)).1.TimingOffset = 0 ∧
    (CheckBeatTimingByTag initState tagA 0 (1/2)).1.bHit = false ∧
    (CheckBeatTimingByTag initState tagA 0 (1/2)).2 = initState :=
  C6_fallback_result initState tagA 0 (1/2) (Or.inl rfl)

/-- A one-track, one-section sequence holding exactly `noteA`, at a
60 FPS display rate. -/
def seqA : ULevelSequence :=
  { MovieScene := some { DisplayRate := 60, Tracks := [.noteChart [.note ⟨[noteA]⟩]] } }

/-- C7 counterexample: loading a null sequence while a chart is already
cached returns false but does NOT leave the note index empty — the
previously cached notes survive untouched. -/
theorem C7_null_load_cex :
    (LoadNoteChartFromSequence chartState none).1 = false ∧
    (LoadNoteChartFromSequence chartState none).2.CachedNotesSorted ≠ [] := by
  simp [LoadNoteChartFromSequence, chartState, initState, noteA]

/-- C7 (amended): a load with a null sequence returns false and leaves
the whole state untouched (prior notes survive); a load whose sequence
has no movie scene, or contributes zero notes, returns false with the
index cleared (no notes, consumed keys cleared, cursor 0); otherwise it
returns true with the collected notes sorted ascending by timestamp (a
permutation of the collected notes), cursor 0, consumed keys cleared,
and the display rate cached. -/
theorem C7_load_chart (s : BeatState) (seq : Option ULevelSequence) :
    (seq = none → LoadNoteChartFromSequence s seq = (false, s)) ∧
    (∀ sq : ULevelSequence, seq = some sq → sq.MovieScene = none →
      LoadNoteChartFromSequence s seq =
        (false, { s with CachedNotesSorted := [], ConsumedNoteTimestamps := [],
                         CurrentNoteIndex := 0 })) ∧
    (∀ sq ms, seq = some sq → sq.MovieScene = some ms →
      collectNotes ms.Tracks = [] →
      (LoadNoteChartFromSequence s seq).1 = false ∧
      (LoadNoteChartFromSequence s seq).2.CachedNotesSorted = [] ∧
      (LoadNoteChartFromSequence s seq).2.ConsumedNoteTimestamps = [] ∧
      (LoadNoteChartFromSequence s seq).2.CurrentNoteIndex = 0) ∧
    (∀ sq ms, seq = some sq → sq.MovieScene = some ms →
      collectNotes ms.Tracks ≠ [] →
      (LoadNoteChartFromSequence s seq).1 = true ∧
      (LoadNoteChartFromSequence s seq).2.CachedNotesSorted.Pairwise
        (fun a b => a.Timestamp ≤ b.Timestamp) ∧
      (LoadNoteChartFromSequence s seq).2.CachedNotesSorted.Perm
        (collectNotes ms.Tracks) ∧
      (LoadNoteChartFromSequence s seq).2.ConsumedNoteTimestamps = [] ∧
      (LoadNoteChartFromSequence s seq).2.CurrentNoteIndex = 0 ∧
      (LoadNoteChartFromSequence s seq).2.CachedSequenceFrameRate = ms.DisplayRate) := by
  refine ⟨?_, ?_, ?_, ?_⟩
  · rintro rfl
    rfl
  · rintro sq rfl hms
    simp [LoadNoteChartFromSequence, hms]
  · rintro sq ms rfl hms hzero
    simp [LoadNoteChartFromSequence, hms, hzero]
  · rintro sq ms rfl hms hne
    have hsorted : ((collectNotes ms.Tracks).mergeSort noteLE).Pairwise
        (fun a b => noteLE a b = true) :=
      List.sorted_mergeSort
        (by intro a b c hab hbc
            simp only [noteLE, decide_eq_true_eq] at *
            omega)
        (by intro a b
            simp only [noteLE, Bool.or_eq_true, decide_eq_true_eq]
            omega)
        (collectNotes ms.Tracks)
    have hperm := List.mergeSort_perm (collectNotes ms.Tracks) noteLE
    have hlen : 0 < ((collectNotes ms.Tracks).mergeSort noteLE).length := by
      rw [hperm.length_eq]
      exact List.length_pos.mpr hne
    refine ⟨?_, ?_, ?_, ?_, ?_, ?_⟩
    · simp only [LoadNoteChartFromSequence, hms]
      simpa using hlen
    · simpa [LoadNoteChartFromSequence, hms] using
        hsorted.imp (by
          intro a b hab
          simpa [noteLE] using hab)
    · simpa [LoadNoteChartFromSequence, hms] using hperm
    · simp [LoadNoteChartFromSequence, hms]
    · simp [LoadNoteChartFromSequence, hms]
    · simp [LoadNoteChartFromSequence, hms]

/-- Witness for C7's amended theorem: loading the one-note sequence
`seqA` into the empty initial state succeeds. -/
theorem C7_load_chart_witness :
    (LoadNoteChartFromSequence initState (some seqA)).1 = true ∧
    (LoadNoteChartFromSequence initState (some seqA)).2.CachedNotesSorted.Pairwise
      (fun a b => a.Timestamp ≤ b.Timestamp) ∧
    (LoadNoteChartFromSequence initState (some seqA)).2.CachedNotesSorted.Perm
      (collectNotes [.noteChart [.note ⟨[noteA]⟩]]) ∧
    (LoadNoteChartFromSequence initState (some seqA)).2.ConsumedNoteTimestamps = [] ∧
    (LoadNoteChartFromSequence initState (some seqA)).2.CurrentNoteIndex = 0 ∧
    (LoadNoteChartFromSequence initState (some seqA)).2.CachedSequenceFrameRate = 60 :=
  (C7_load_chart initState (some seqA)).2.2.2 seqA
    { DisplayRate := 60, Tracks := [.noteChart [.note ⟨[noteA]⟩]] } rfl rfl
    (by simp [collectNotes])

/-- Playback state with one active song and one queued song. -/
def songState : BeatState :=
  { initState with CurrentlyPlayingSong := some 1, QueuedSongs := [2],
                   PlayerPlaying := true }

/-- C9 counterexample: `StopCurrentSong` does not clear the pending
song queue — with a song playing and another queued, the queue is
still non-empty after stopping. -/
theorem C9_song_queue_cex : (StopCurrentSong songState).QueuedSongs ≠ [] := by
  simp [StopCurrentSong, CleanupSongPlayback, ClearNoteChart, songState, initState]

/-- C9 (amended): `StopCurrentSong` and `StopNoteChartSequence` are
idempotent on the state.  When a song is active, `StopCurrentSong`
stops playback and clears the track queue, the current track, the
current song and the note chart, but leaves the pending song queue
untouched; `StopNoteChartSequence` always stops playback and clears
the current sequence and the note chart. -/
theorem C9_stop_idempotent (s : BeatState) :
    StopCurrentSong (StopCurrentSong s) = StopCurrentSong s ∧
    StopNoteChartSequence (StopNoteChartSequence s) = StopNoteChartSequence s ∧
    (s.CurrentlyPlayingSong ≠ none →
      (StopCurrentSong s).PlayerPlaying = false ∧
      (StopCurrentSong s).QueuedTracks = [] ∧
      (StopCurrentSong s).CurrentTrackInfo = default ∧
      (StopCurrentSong s).CurrentlyPlayingSong = none ∧
      (StopCurrentSong s).CachedNotesSorted = [] ∧
      (StopCurrentSong s).ConsumedNoteTimestamps = [] ∧
      (StopCurrentSong s).CurrentNoteIndex = 0 ∧
      (StopCurrentSong s).QueuedSongs = s.QueuedSongs) ∧
    ((StopNoteChartSequence s).PlayerPlaying = false ∧
     (StopNoteChartSequence s).CurrentNoteChartSequence = none ∧
     (StopNoteChartSequence s).CachedNotesSorted = [] ∧
     (StopNoteChartSequence s).ConsumedNoteTimestamps = [] ∧
     (StopNoteChartSequence s).CurrentNoteIndex = 0) := by
  refine ⟨?_, rfl, ?_, rfl, rfl, rfl, rfl, rfl⟩
  · cases h : s.CurrentlyPlayingSong with
    | none => simp [StopCurrentSong, h]
    | some _ => simp [StopCurrentSong, CleanupSongPlayback, ClearNoteChart, h]
  · intro h
    cases hc : s.CurrentlyPlayingSong with
    | none => exact absurd hc h
    | some _ =>
      simp [StopCurrentSong, CleanupSongPlayback, ClearNoteChart, hc]

/-- Witness for C9's amended theorem at `songState`. -/
theorem C9_stop_idempotent_witness :
    (StopCurrentSong songState).PlayerPlaying = false ∧
    (StopCurrentSong songState).QueuedSongs = songState.QueuedSongs :=
  by
    have h := (C9_stop_idempotent songState).2.2.1 (by simp [songState])
    exact ⟨h.1, h.2.2.2.2.2.2.2⟩

/-- The BPM state invariant: the current BPM sits in [20,400] and the
pending BPM is either 0 (nothing queued) or itself in [20,400]. -/
def BPMInvariant (s : BeatState) : Prop :=
  (20 ≤ s.CurrentBPM ∧ s.CurrentBPM ≤ 400) ∧
  (s.PendingBPM = 0 ∨ (20 ≤ s.PendingBPM ∧ s.PendingBPM ≤ 400))

section BPMHelpers

lemma clampQ_mem {x lo hi : ℚ} (h : lo ≤ hi) :
    lo ≤ clampQ x lo hi ∧ clampQ x lo hi ≤ hi := by
  unfold clampQ
  constructor
  · exact le_min h (le_max_left _ _)
  · exact min_le_left _ _

lemma SetBPM_invariant (s : BeatState) (v : FloatIn) (hs : BPMInvariant s) :
    BPMInvariant (SetBPM s v) := by
  obtain ⟨⟨h1, h2⟩, hp⟩ := hs
  cases v with
  | nan =>
    simp [SetBPM, FloatIn.leZero, FloatIn.isFinite, RecreateTimerWithNewRate,
      BPMInvariant]
    norm_num
  | posInf =>
    simp [SetBPM, FloatIn.leZero, FloatIn.isFinite, RecreateTimerWithNewRate,
      BPMInvariant]
    norm_num
  | negInf =>
    simp [SetBPM, FloatIn.leZero, FloatIn.isFinite, RecreateTimerWithNewRate,
      BPMInvariant]
    norm_num
  | fin q =>
    by_cases hq : q ≤ 0
    · simp [SetBPM, FloatIn.leZero, FloatIn.isFinite, hq, RecreateTimerWithNewRate,
        BPMInvariant]
      norm_num
    · simp only [SetBPM, FloatIn.leZero, FloatIn.isFinite, decide_eq_true_eq,
        Bool.not_true, Bool.or_false]
      rw [if_neg (by simpa using hq)]
      by_cases hr : q < 20 ∨ q > 400
      · rw [if_pos hr]
        split_ifs with hne
        · exact ⟨⟨h1, h2⟩, Or.inr (clampQ_mem (by norm_num))⟩
        · exact ⟨⟨h1, h2⟩, hp⟩
      · rw [if_neg hr]
        push_neg at hr
        split_ifs with hne
        · exact ⟨⟨h1, h2⟩, Or.inr ⟨hr.1, hr.2⟩⟩
        · exact ⟨⟨h1, h2⟩, hp⟩

lemma SetBPM_invalid_resets (s : BeatState) (v : FloatIn)
    (hv : (v.leZero || !v.isFinite) = true) : (SetBPM s v).CurrentBPM = 120 := by
  cases v with
  | fin q =>
    have hq : q ≤ 0 := by
      simpa [FloatIn.leZero, FloatIn.isFinite] using hv
    simp [SetBPM, FloatIn.leZero, FloatIn.isFinite, hq, RecreateTimerWithNewRate]
  | nan => simp [SetBPM, FloatIn.leZero, FloatIn.isFinite, RecreateTimerWithNewRate]
  | posInf => simp [SetBPM, FloatIn.leZero, FloatIn.isFinite, RecreateTimerWithNewRate]
  | negInf => simp [SetBPM, FloatIn.leZero, FloatIn.isFinite, RecreateTimerWithNewRate]

lemma tickState_invariant (s : BeatState) (hs : BPMInvariant s) :
    BPMInvariant (tickState s) := by
  obtain ⟨⟨h1, h2⟩, hp⟩ := hs
  simp only [tickState, BroadcastBeatEvent]
  split_ifs with hc hb hsub
  · rcases hp with hp0 | hpr
    · exact absurd hc.1 (by simp [hp0])
    · exact ⟨⟨by simpa [RecreateTimerWithNewRate] using hpr.1,
              by simpa [RecreateTimerWithNewRate] using hpr.2⟩,
             Or.inl (by simp [RecreateTimerWithNewRate])⟩
  · exact ⟨⟨h1, h2⟩, hp⟩
  · exact ⟨⟨h1, h2⟩, hp⟩
  · exact ⟨⟨h1, h2⟩, hp⟩

end BPMHelpers

/-- C5: starting from any state satisfying the BPM invariant, any
`SetBPM` call (with any finite, NaN or infinite argument) and any tick
of the handler (which is what applies a pending BPM) preserve it: the
stored BPM stays strictly positive and within [20,400]; and every
input that is ≤0, NaN or infinite resets the BPM to exactly 120. -/
theorem C5_bpm_always_in_range (s : BeatState) (v : FloatIn) (hs : BPMInvariant s) :
    BPMInvariant (SetBPM s v) ∧
    (0 < (SetBPM s v).CurrentBPM ∧ 20 ≤ (SetBPM s v).CurrentBPM ∧
      (SetBPM s v).CurrentBPM ≤ 400) ∧
    BPMInvariant (tickState s) ∧
    (0 < (tickState s).CurrentBPM ∧ 20 ≤ (tickState s).CurrentBPM ∧
      (tickState s).CurrentBPM ≤ 400) ∧
    ((v.leZero || !v.isFinite) = true → (SetBPM s v).CurrentBPM = 120) := by
  have hset := SetBPM_invariant s v hs
  have htick := tickState_invariant s hs
  refine ⟨hset, ⟨?_, hset.1.1, hset.1.2⟩, htick, ⟨?_, htick.1.1, htick.1.2⟩,
    SetBPM_invalid_resets s v⟩
  · linarith [hset.1.1]
  · linarith [htick.1.1]

/-- Witness for C5 at the initial state with a NaN input. -/
theorem C5_bpm_always_in_range_witness :
    BPMInvariant (SetBPM initState .nan) ∧
    (0 < (SetBPM initState .nan).CurrentBPM ∧
      20 ≤ (SetBPM initState .nan).CurrentBPM ∧
      (SetBPM initState .nan).CurrentBPM ≤ 400) ∧
    BPMInvariant (tickState initState) ∧
    (0 < (tickState initState).CurrentBPM ∧
      20 ≤ (tickState initState).CurrentBPM ∧
      (tickState initState).CurrentBPM ≤ 400) ∧
    ((FloatIn.nan.leZero || !FloatIn.nan.isFinite) = true →
      (SetBPM initState .nan).CurrentBPM = 120) :=
  C5_bpm_always_in_range initState .nan
    (by constructor <;> norm_num [initState])

section ConsumptionHelpers

lemma scanNotes_not_consumed (Consumed : List ℤ) (BPM FPS : ℚ)
    (tag : FGameplayTag) (t : ℚ) :
    ∀ (l : List FNoteInstance) (i : ℕ) (note : FNoteInstance)
      (nd : UNoteDataAsset) (j : ℕ),
      scanNotes Consumed BPM FPS tag t l i = some (note, nd, j) →
      note.Timestamp ∉ Consumed := by
  intro l
  induction l with
  | nil =>
    intro i note nd j h
    simp [scanNotes] at h
  | cons a rest ih =>
    intro i note nd j h
    by_cases hc : a.Timestamp ∈ Consumed
    · rw [scanNotes, if_pos hc] at h
      exact ih _ _ _ _ h
    · rw [scanNotes, if_neg hc] at h
      cases hnd : a.NoteData with
      | none =>
        rw [hnd] at h
        exact ih _ _ _ _ h
      | some nd' =>
        rw [hnd] at h
        dsimp only at h
        by_cases htag : nd'.NoteTag ≠ tag
        · rw [if_pos htag] at h
          exact ih _ _ _ _ h
        · rw [if_neg htag] at h
          split at h
          · cases h
            exact hc
          · split at h
            · exact ih _ _ _ _ h
            · cases h

lemma GetNextNoteForTag_not_consumed {s : BeatState} {tag : FGameplayTag} {t : ℚ}
    {note : FNoteInstance} {nd : UNoteDataAsset} {i : ℕ}
    (h : GetNextNoteForTag s tag t = some (note, nd, i)) :
    note.Timestamp ∉ s.ConsumedNoteTimestamps := by
  rw [GetNextNoteForTag] at h
  split at h
  · cases h
  · exact scanNotes_not_consumed _ _ _ _ _ _ _ _ _ _ h

lemma applyOp_consumed_mono {ts : ℤ} (s : BeatState) (op : BeatOp)
    (h : ts ∈ s.ConsumedNoteTimestamps) :
    ts ∈ (applyOp s op).ConsumedNoteTimestamps := by
  cases op with
  | check tag t p =>
    simp only [applyOp, CheckBeatTimingByTag]
    split
    · exact h
    · split
      · exact h
      · simpa [MarkNoteConsumed] using Or.inr h

lemma runOps_consumed_mono {ts : ℤ} (s : BeatState) (ops : List BeatOp)
    (h : ts ∈ s.ConsumedNoteTimestamps) :
    ts ∈ (runOps s ops).ConsumedNoteTimestamps := by
  induction ops generalizing s with
  | nil => exact h
  | cons op rest ih =>
    exact ih _ (applyOp_consumed_mono s op h)

end ConsumptionHelpers

/-- C4: once a note's timestamp has been marked consumed, no later
`GetNextNoteForTag` call — after any further sequence of validation
calls, which never un-consume — returns that note again (consumption
is only cleared by `ResetConsumedNotes` or a chart reload, neither of
which occurs in a validation-call sequence). -/
theorem C4_consumed_never_rematched (s : BeatState) (ops : List BeatOp)
    (tag : FGameplayTag) (t : ℚ) (n note : FNoteInstance)
    (nd : UNoteDataAsset) (i : ℕ)
    (hn : n.Timestamp ∈ s.ConsumedNoteTimestamps)
    (h : GetNextNoteForTag (runOps s ops) tag t = some (note, nd, i)) :
    note ≠ n := by
  have h1 := GetNextNoteForTag_not_consumed h
  have h2 := runOps_consumed_mono s ops hn
  intro e
  rw [e] at h1
  exact h1 h2

/-- Chart with `noteA` already consumed and `noteB` still available. -/
def consumedState : BeatState :=
  { initState with CachedNotesSorted := [noteA, noteB],
                   ConsumedNoteTimestamps := [120] }

/-- Witness for C4: with `noteA` consumed, a matching query at 4.0 s
returns `noteB`, which is a different note. -/
theorem C4_consumed_never_rematched_witness : noteB ≠ noteA :=
  C4_consumed_never_rematched consumedState [] tagA 4 noteA noteB noteDataA 1
    (by simp [consumedState, initState, noteA])
    (by norm_num [runOps, GetNextNoteForTag, scanNotes, consumedState, initState,
      noteA, noteB, noteDataA, tagA, FGameplayTag.IsValid,
      ConvertMusicalNoteToSeconds])

/-- C10: because consumption is keyed by the raw timestamp alone,
marking one of two distinct loaded notes that share a timestamp
consumed makes `GetNextNoteForTag` skip the other one too, for every
tag and every later validation-call sequence (until consumption is
reset). -/
theorem C10_timestamp_collision_blocks_sibling (s : BeatState)
    (n1 n2 : FNoteInstance) (ops : List BeatOp) (tag : FGameplayTag) (t : ℚ)
    (note : FNoteInstance) (nd : UNoteDataAsset) (i : ℕ)
    (h1 : n1 ∈ s.CachedNotesSorted) (h2 : n2 ∈ s.CachedNotesSorted)
    (hne : n1 ≠ n2) (hts : n1.Timestamp = n2.Timestamp)
    (h : GetNextNoteForTag (runOps (MarkNoteConsumed s n1) ops) tag t
          = some (note, nd, i)) :
    note ≠ n2 := by
  have hmem : n2.Timestamp ∈ (MarkNoteConsumed s n1).ConsumedNoteTimestamps := by
    simp [MarkNoteConsumed, ← hts]
  have hmono := runOps_consumed_mono _ ops hmem
  have hnc := GetNextNoteForTag_not_consumed h
  intro e
  rw [e] at hnc
  exact hnc hmono

/-- Chart holding `noteA`, its same-timestamp sibling `noteC` (a
different tag), and the later `noteB`. -/
def collisionState : BeatState :=
  { initState with CachedNotesSorted := [noteA, noteC, noteB] }

/-- Witness for C10: after consuming `noteA`, a query for its tag at
4.0 s skips the same-timestamp `noteC` and lands on `noteB`. -/
theorem C10_timestamp_collision_witness : noteB ≠ noteC :=
  C10_timestamp_collision_blocks_sibling collisionState noteA noteC [] tagA 4
    noteB noteDataA 2
    (by simp [collisionState, initState])
    (by simp [collisionState, initState])
    (by decide)
    (by decide)
    (by norm_num [runOps, MarkNoteConsumed, GetNextNoteForTag, scanNotes,
      collisionState, initState, noteA, noteB, noteC, noteDataA, noteDataC, tagA,
      FGameplayTag.IsValid, ConvertMusicalNoteToSeconds])

section TickHelpers

lemma tickState_steady (s : BeatState)
    (h : ¬(0 < s.PendingBPM ∧ (s.CurrentBeatTick + 1) % 16 = 0)) :
    tickState s = { s with CurrentBeatTick := s.CurrentBeatTick + 1 } := by
  have h' : ¬(0 < s.PendingBPM ∧ (s.CurrentBeatTick + 1) % InternalSubdivision = 0) := by
    simpa [InternalSubdivision] using h
  simp only [tickState, BroadcastBeatEvent]
  rw [if_neg h']
  split_ifs <;> rfl

lemma tickState_apply (s : BeatState) (h1 : 0 < s.PendingBPM)
    (h2 : (s.CurrentBeatTick + 1) % 16 = 0) :
    tickState s =
      { s with CurrentBPM := s.PendingBPM, PendingBPM := 0, CurrentBeatTick := 0,
               TimerRate := (60 / s.PendingBPM) / 16 + s.CalibrationOffsetMs / 1000 } ∧
    (BroadcastBeatEvent s).2 = [.bpmChanged s.PendingBPM] := by
  have h2' : (s.CurrentBeatTick + 1) % InternalSubdivision = 0 := by
    simpa [InternalSubdivision] using h2
  constructor
  · simp only [tickState, BroadcastBeatEvent]
    rw [if_pos ⟨h1, h2'⟩]
    simp [RecreateTimerWithNewRate, GetTimerRate, InternalSubdivision]
  · simp only [BroadcastBeatEvent]
    rw [if_pos ⟨h1, h2'⟩]

lemma tickStateN_steady (s : BeatState) (n : ℕ)
    (h : ∀ j, 1 ≤ j → j ≤ n → ¬(0 < s.PendingBPM ∧ (s.CurrentBeatTick + j) % 16 = 0)) :
    tickStateN s n = { s with CurrentBeatTick := s.CurrentBeatTick + n } := by
  induction n with
  | zero => simp [tickStateN]
  | succ n ih =>
    rw [tickStateN, Function.iterate_succ_apply']
    rw [show tickState^[n] s = tickStateN s n from rfl]
    rw [ih (fun j hj1 hj2 => h j hj1 (Nat.le_succ_of_le hj2))]
    rw [tickState_steady]
    · congr 1
    · simpa using h (n + 1) (by omega) (by omega)

end TickHelpers

/-- C2: queuing a BPM `v ∈ [20,400]` with `v` different from the
current BPM does not change `GetBPM` immediately; the value stays the
prior BPM at every tick until the tick counter reaches the next
multiple of 16, at which tick the pending value becomes current, the
counter resets to 0, the scheduler rate is recomputed from the new
BPM, and the BPM-changed event is emitted. -/
theorem C2_bpm_change_queued (s : BeatState) (v : ℚ)
    (h20 : 20 ≤ v) (h400 : v ≤ 400) (hne : v ≠ s.CurrentBPM) :
    (SetBPM s (.fin v)).CurrentBPM = s.CurrentBPM ∧
    (SetBPM s (.fin v)).PendingBPM = v ∧
    (SetBPM s (.fin v)).CurrentBeatTick = s.CurrentBeatTick ∧
    (∀ n, n < 16 - s.CurrentBeatTick % 16 →
      (tickStateN (SetBPM s (.fin v)) n).CurrentBPM = s.CurrentBPM) ∧
    (tickStateN (SetBPM s (.fin v)) (16 - s.CurrentBeatTick % 16)).CurrentBPM = v ∧
    (tickStateN (SetBPM s (.fin v)) (16 - s.CurrentBeatTick % 16)).PendingBPM = 0 ∧
    (tickStateN (SetBPM s (.fin v)) (16 - s.CurrentBeatTick % 16)).CurrentBeatTick
      = 0 ∧
    (tickStateN (SetBPM s (.fin v)) (16 - s.CurrentBeatTick % 16)).TimerRate
      = (60 / v) / 16 + s.CalibrationOffsetMs / 1000 ∧
    (BroadcastBeatEvent
        (tickStateN (SetBPM s (.fin v)) (16 - s.CurrentBeatTick % 16 - 1))).2
      = [.bpmChanged v] := by
  have hq0 : ¬(v ≤ 0) := by linarith
  have hrange : ¬(v < 20 ∨ v > 400) := by
    push_neg
    exact ⟨h20, h400⟩
  have hset : SetBPM s (.fin v) = { s with PendingBPM := v } := by
    simp only [SetBPM, FloatIn.leZero, FloatIn.isFinite, Bool.not_true,
      Bool.or_false]
    rw [if_neg (by simpa using hq0), if_neg hrange, if_pos hne]
  set c0 := s.CurrentBeatTick with hc0
  set npre := 16 - c0 % 16 with hnpre
  have hpre : ∀ n, n ≤ npre - 1 →
      tickStateN { s with PendingBPM := v } n
        = { s with PendingBPM := v, CurrentBeatTick := c0 + n } := by
    intro n hn
    exact tickStateN_steady _ n (by
      intro j hj1 hj2
      rintro ⟨-, hmod⟩
      simp only at hmod
      omega)
  have hsteps : npre - 1 + 1 = npre := by omega
  have hlast :
      tickStateN { s with PendingBPM := v } npre
        = tickState (tickStateN { s with PendingBPM := v } (npre - 1)) := by
    rw [← hsteps, tickStateN, Function.iterate_succ_apply']
    rfl
  have hpre1 := hpre (npre - 1) le_rfl
  have happly := tickState_apply
    { s with PendingBPM := v, CurrentBeatTick := c0 + (npre - 1) }
    (by simpa using lt_of_lt_of_le (by norm_num : (0:ℚ) < 20) h20)
    (by simp only; omega)
  refine ⟨by rw [hset], by rw [hset], by rw [hset], ?_, ?_, ?_, ?_, ?_, ?_⟩
  · intro n hn
    rw [hset, hpre n (by omega)]
  · rw [hset, hlast, hpre1, happly.1]
  · rw [hset, hlast, hpre1, happly.1]
  · rw [hset, hlast, hpre1, happly.1]
  · rw [hset, hlast, hpre1, happly.1]
  · rw [hset, hpre1, happly.2]

/-- Witness for C2: queuing 180 BPM on the fresh 120 BPM state leaves
`GetBPM` at 120, and the 16th tick applies 180. -/
theorem C2_bpm_change_queued_witness :
    (SetBPM initState (.fin 180)).CurrentBPM = initState.CurrentBPM ∧
    (tickStateN (SetBPM initState (.fin 180))
        (16 - initState.CurrentBeatTick % 16)).CurrentBPM = 180 := by
  have h := C2_bpm_change_queued initState 180 (by norm_num) (by norm_num)
    (by norm_num [initState])
  exact ⟨h.1, h.2.2.2.2.1⟩

/-- Does a broadcast event carry beat (not BPM-change) data? -/
def isBeatEvent : BeatEvent → Bool
  | .beat _ _ _ => true
  | _ => false

section BroadcastHelpers

lemma runTicks_succ (s : BeatState) (n : ℕ) :
    runTicks s (n + 1)
      = ((runTicks (tickState s) n).1,
         (BroadcastBeatEvent s).2 ++ (runTicks (tickState s) n).2) := rfl

lemma tickEvents_quarter (s : BeatState) (hp : s.PendingBPM = 0)
    (hb : s.bBeatBroadcastingEnabled = true)
    (hq : s.CurrentSubdivision = .Quarter) :
    (BroadcastBeatEvent s).2 =
      if (s.CurrentBeatTick + 1) % 4 = 0 then
        [.beat ((s.CurrentBeatTick + 1) / 16)
               (((s.CurrentBeatTick + 1) / 4) % 4) .Quarter]
      else [] := by
  simp only [BroadcastBeatEvent, hp, hb, hq]
  rw [if_neg (by norm_num)]
  simp only [GetTicksForSubdivision, InternalSubdivision, GetCurrentBeatNumber]
  norm_num
  split_ifs <;> rfl

lemma runTicks_count_quarter (n : ℕ) :
    ∀ (s : BeatState), s.PendingBPM = 0 → s.bBeatBroadcastingEnabled = true →
      s.CurrentSubdivision = .Quarter →
      (runTicks s n).2.countP isBeatEvent
        = (List.range n).countP (fun k => decide ((s.CurrentBeatTick + k + 1) % 4 = 0)) := by
  induction n with
  | zero => intro s _ _ _; simp [runTicks]
  | succ n ih =>
    intro s hp hb hq
    have hstep : tickState s = { s with CurrentBeatTick := s.CurrentBeatTick + 1 } :=
      tickState_steady s (by simp [hp])
    rw [runTicks_succ, List.countP_append]
    rw [show (runTicks (tickState s) n).2.countP isBeatEvent
        = (List.range n).countP
            (fun k => decide (((tickState s).CurrentBeatTick + k + 1) % 4 = 0)) from
      ih (tickState s) (by rw [hstep]; exact hp) (by rw [hstep]; exact hb)
        (by rw [hstep]; exact hq)]
    rw [tickEvents_quarter s hp hb hq]
    rw [List.range_succ_eq_map, List.countP_cons, List.countP_map]
    have hhead : (if (s.CurrentBeatTick + 1) % 4 = 0 then
        [BeatEvent.beat ((s.CurrentBeatTick + 1) / 16)
          (((s.CurrentBeatTick + 1) / 4) % 4) .Quarter] else []).countP isBeatEvent
        = if decide ((s.CurrentBeatTick + 0 + 1) % 4 = 0) = true then 1 else 0 := by
      split_ifs with h1 h2 h3 <;> simp_all [isBeatEvent]
    rw [hhead, hstep]
    have htail : (List.range n).countP
          (fun k => decide ((s.CurrentBeatTick + 1 + k + 1) % 4 = 0))
        = (List.range n).countP
            ((fun k => decide ((s.CurrentBeatTick + k + 1) % 4 = 0)) ∘ Nat.succ) := by
      apply List.countP_congr
      intro k _
      simp only [Function.comp, decide_eq_true_eq]
      omega
    rw [show ({ s with CurrentBeatTick := s.CurrentBeatTick + 1 } :
        BeatState).CurrentBeatTick = s.CurrentBeatTick + 1 from rfl]
    rw [htail]
    omega

lemma count_mod4_range16 (c0 : ℕ) :
    (List.range 16).countP (fun k => decide ((c0 + k + 1) % 4 = 0)) = 4 := by
  rw [List.countP_congr (q := fun k => decide ((c0 % 4 + k + 1) % 4 = 0))
    (by
      intro k _
      simp only [decide_eq_true_eq]
      omega)]
  have h4 : c0 % 4 < 4 := Nat.mod_lt _ (by norm_num)
  set r := c0 % 4 with hr
  interval_cases r <;> decide

end BroadcastHelpers

/-- C8: with broadcasting enabled at Quarter subdivision and no BPM
change pending, 16 consecutive ticks produce exactly 4 beat-event
broadcasts; a broadcast fires at a tick exactly when the counter value
it reaches is a multiple of 4 (counter values 4, 8, 12, 16 when
starting from 0), and each broadcast carries
`subdivisionIndex = (tickCounter / 4) % 4`. -/
theorem C8_quarter_subdivision (s : BeatState)
    (hp : s.PendingBPM = 0) (hb : s.bBeatBroadcastingEnabled = true)
    (hq : s.CurrentSubdivision = .Quarter) :
    (runTicks s 16).2.countP isBeatEvent = 4 ∧
    (∀ j, 1 ≤ j → j ≤ 16 →
      (BroadcastBeatEvent (tickStateN s (j - 1))).2 =
        if (s.CurrentBeatTick + j) % 4 = 0 then
          [.beat ((s.CurrentBeatTick + j) / 16)
                 (((s.CurrentBeatTick + j) / 4) % 4) .Quarter]
        else []) ∧
    (s.CurrentBeatTick = 0 →
      ∀ j, 1 ≤ j → j ≤ 16 →
        ((BroadcastBeatEvent (tickStateN s (j - 1))).2 ≠ [] ↔
          j = 4 ∨ j = 8 ∨ j = 12 ∨ j = 16)) := by
  have hperTick : ∀ j, 1 ≤ j → j ≤ 16 →
      (BroadcastBeatEvent (tickStateN s (j - 1))).2 =
        if (s.CurrentBeatTick + j) % 4 = 0 then
          [.beat ((s.CurrentBeatTick + j) / 16)
                 (((s.CurrentBeatTick + j) / 4) % 4) .Quarter]
        else [] := by
    intro j hj1 hj16
    have hpre : tickStateN s (j - 1)
        = { s with CurrentBeatTick := s.CurrentBeatTick + (j - 1) } :=
      tickStateN_steady s (j - 1) (by simp [hp])
    rw [hpre, tickEvents_quarter _ (by exact hp) (by exact hb) (by exact hq)]
    have hj : s.CurrentBeatTick + (j - 1) + 1 = s.CurrentBeatTick + j := by omega
    rw [show ({ s with CurrentBeatTick := s.CurrentBeatTick + (j - 1) } :
        BeatState).CurrentBeatTick = s.CurrentBeatTick + (j - 1) from rfl, hj]
  refine ⟨?_, hperTick, ?_⟩
  · rw [runTicks_count_quarter 16 s hp hb hq]
    exact count_mod4_range16 s.CurrentBeatTick
  · intro h0 j hj1 hj16
    rw [hperTick j hj1 hj16, h0]
    split_ifs with hmod
    · constructor
      · intro _
        omega
      · intro _
        simp
    · constructor
      · intro hne
        exact absurd rfl hne
      · intro hj
        exact absurd (by omega) hmod

/-- The steady broadcasting state: Quarter subdivision enabled on the
fresh state. -/
def quarterState : BeatState :=
  { initState with bBeatBroadcastingEnabled := true,
                   CurrentSubdivision := .Quarter }

/-- Witness for C8 at `quarterState`. -/
theorem C8_quarter_subdivision_witness :
    (runTicks quarterState 16).2.countP isBeatEvent = 4 :=
  (C8_quarter_subdivision quarterState rfl rfl rfl).1

end UniversalBeat
